import Mathlib

/-!
# Facet filter of `src/App.jsx`

A shallow embedding of the filtering core of the `FridgeShopPrototype`
component: the compiled-in catalog `PRODUCTS`, the `selected` state (three
JavaScript `Set`s), the derived values `counts` and `filtered`, and the two
state updates `toggleOption` and `clearFilters`.

Modelling conventions.

* A JavaScript `Set` of strings is an insertion-ordered list of strings
  without repetition (`JSSet`); `has`, `add`, `delete`, `size` and the copy
  constructor `new Set(s)` are the operations the component uses.
* An object literal `{}` used as a dictionary (`c.type`, `c.tech`, `c.color`)
  is the list of its own properties (`JSObj`) on top of the members it inherits
  from `Object.prototype`: a read falls back to the inherited member, an
  assignment creates an own property, except through the `__proto__` setter.
  The order of the list plays no role in a read. The text of a built-in
  function is the one V8 prints.
* A numeric count is a natural number: it is bounded by the number of array
  elements visited, far below the range where a JavaScript number loses
  precision.
* `setSelected(updater)` is a state transition `Selection → Selection`.
-/

namespace FridgeShop

/-! ## Data model -/

/-- One entry of the `PRODUCTS` array. -/
structure Product where
  id : Nat
  title : String
  brand : String
  type : String
  technologies : List String
  color : String
  price : Nat
deriving DecidableEq, Repr

/-- A JavaScript `Set` of strings: its elements in insertion order, each once. -/
structure JSSet where
  items : List String
  nodup : items.Nodup

namespace JSSet

/-- The set `new Set()`. -/
def empty : JSSet := ⟨[], List.nodup_nil⟩

/-- The number `s.size`. -/
def size (s : JSSet) : Nat := s.items.length

/-- The test `s.has(x)`. -/
def has (s : JSSet) (x : String) : Bool := s.items.contains x

/-- The set after `s.add(x)`: a new element goes to the end, a present one changes nothing. -/
def add (s : JSSet) (x : String) : JSSet :=
  if h : x ∈ s.items then s
  else ⟨s.items ++ [x], List.Nodup.append s.nodup (List.nodup_singleton x)
        (by
          intro a ha hb
          have hax : a = x := by simpa using hb
          exact h (hax ▸ ha))⟩

/-- The set after `s.delete(x)`. -/
def delete (s : JSSet) (x : String) : JSSet :=
  ⟨s.items.erase x, s.nodup.erase x⟩

/-- The set `new Set(s)`: the same elements in the same order. -/
def copy (s : JSSet) : JSSet := ⟨s.items, s.nodup⟩

end JSSet

/-- The three facet groups, the keys of `FILTER_GROUPS` and of `selected`. -/
inductive Group where
  | type
  | tech
  | color
deriving DecidableEq, Repr

/-- The state `selected`: one set of chosen options per group. -/
structure Selection where
  type : JSSet
  tech : JSSet
  color : JSSet

namespace Selection

/-- The property read `sel[group]`. -/
def get (sel : Selection) : Group → JSSet
  | Group.type => sel.type
  | Group.tech => sel.tech
  | Group.color => sel.color

/-- The selection with the set of `group` replaced by `s`. -/
def set (sel : Selection) (group : Group) (s : JSSet) : Selection :=
  match group with
  | Group.type => { sel with type := s }
  | Group.tech => { sel with tech := s }
  | Group.color => { sel with color := s }

end Selection

/-- The constant `PRODUCTS`. -/
def PRODUCTS : List Product :=
  [ { id := 1, title := "LG DoorCooling+", brand := "LG", type := "С нижней морозильной камерой",
      technologies := ["DoorCooling+", "InstaView"], color := "Черный", price := 59990 },
    { id := 2, title := "Samsung NoFrost 360", brand := "Samsung", type := "Однокамерный",
      technologies := ["NoFrost", "Door-in-Door"], color := "Серебристый", price := 45990 },
    { id := 3, title := "Bosch MetalFresh", brand := "Bosch", type := "Многокамерный",
      technologies := ["MetalFresh"], color := "Темный графит", price := 69990 },
    { id := 4, title := "Haier SmartCool", brand := "Haier", type := "Side-by-Side",
      technologies := ["Inverter"], color := "Белый", price := 124990 },
    { id := 5, title := "LG InstaView Slim", brand := "LG", type := "С верхней морозильной камерой",
      technologies := ["InstaView", "Inverter"], color := "Черный", price := 82990 } ]

/-- The option list `FILTER_GROUPS[group].options`. -/
def FILTER_GROUPS_options : Group → List String
  | Group.type =>
      [ "Side-by-Side", "Многокамерный", "С нижней морозильной камерой",
        "С верхней морозильной камерой", "Однокамерный" ]
  | Group.tech =>
      [ "DoorCooling+", "Умный Инверторный компрессор", "MetalFresh", "FreshConverter",
        "FreshBalancer", "InstaView", "Door-in-Door", "NoFrost", "Inverter" ]
  | Group.color => [ "Черный", "Серебристый", "Стальной", "Темный графит", "Белый" ]

/-! ## The filter -/

/-- The callback of `PRODUCTS.filter` in `filtered`: the three early `return false`
tests in source order, then `return true`. -/
def keep (selected : Selection) (p : Product) : Bool :=
  if decide (selected.type.size > 0) && !selected.type.has p.type then false
  else if decide (selected.tech.size > 0)
      && !(selected.tech.items.any (fun t => p.technologies.contains t)) then false
  else if decide (selected.color.size > 0) && !selected.color.has p.color then false
  else true

/-- The filter of `filtered` over an arbitrary catalog array. -/
def filteredOf (catalog : List Product) (selected : Selection) : List Product :=
  catalog.filter (keep selected)

/-- The value `filtered`: `PRODUCTS.filter(...)` for the current `selected`. -/
def filtered (selected : Selection) : List Product :=
  filteredOf PRODUCTS selected

/-! ## The state updates -/

/-- The updater passed to `setSelected` by `toggleOption(group, option)`. -/
def toggleOption (group : Group) (option : String) (prev : Selection) : Selection :=
  let copy : Selection :=
    { type := prev.type.copy, tech := prev.tech.copy, color := prev.color.copy }
  if (copy.get group).has option then copy.set group ((copy.get group).delete option)
  else copy.set group ((copy.get group).add option)

/-- The state after `clearFilters()`, whatever the state before. -/
def clearFilters (_prev : Selection) : Selection :=
  { type := JSSet.empty, tech := JSSet.empty, color := JSSet.empty }

/-- The initial state of `selected`. -/
def initialSelected : Selection :=
  { type := JSSet.empty, tech := JSSet.empty, color := JSSet.empty }

/-! ## The counts -/

/-- A primitive value that `+ 1` can yield and a count object can hold. -/
inductive Primitive where
  | number (n : Nat)
  | nan
  | string (s : String)
deriving DecidableEq, Repr

/-- A value that a property read of a count object can return: `undefined`, a
primitive, a built-in function of `Object.prototype` (given by its `name`), or
the object `Object.prototype` itself. -/
inductive JSValue where
  | undefined
  | number (n : Nat)
  | nan
  | string (s : String)
  | builtin (name : String)
  | objectPrototype
deriving DecidableEq, Repr

/-- A primitive as a value. -/
def Primitive.toValue : Primitive → JSValue
  | Primitive.number n => JSValue.number n
  | Primitive.nan => JSValue.nan
  | Primitive.string s => JSValue.string s

/-- The function-valued members of `Object.prototype`: the property key and the
`name` of the function it holds. All are writable data properties. -/
def objectPrototypeFunctions : List (String × String) :=
  [ ("constructor", "Object"),
    ("__defineGetter__", "__defineGetter__"),
    ("__defineSetter__", "__defineSetter__"),
    ("hasOwnProperty", "hasOwnProperty"),
    ("__lookupGetter__", "__lookupGetter__"),
    ("__lookupSetter__", "__lookupSetter__"),
    ("isPrototypeOf", "isPrototypeOf"),
    ("propertyIsEnumerable", "propertyIsEnumerable"),
    ("toString", "toString"),
    ("valueOf", "valueOf"),
    ("toLocaleString", "toLocaleString") ]

/-- The keys of all members of `Object.prototype`: the accessor `__proto__` and
the function-valued ones. -/
def objectPrototypeKeys : List String :=
  "__proto__" :: objectPrototypeFunctions.map (fun kv => kv.1)

/-- The function name stored under key `k` in a list of members, if any. -/
def findMember : List (String × String) → String → Option String
  | [], _ => none
  | (k', name) :: rest, k => if k' = k then some name else findMember rest k

/-- What an object created by `{}` inherits under key `k`: the getter of
`__proto__` returns `Object.prototype`, a function-valued member is read as that
function, any other key is `undefined`. -/
def inheritedProp (k : String) : JSValue :=
  if k = "__proto__" then JSValue.objectPrototype
  else
    match findMember objectPrototypeFunctions k with
    | some name => JSValue.builtin name
    | none => JSValue.undefined

/-- The own properties of an object created by `{}`. The literal `{}` is the
empty list. -/
abbrev JSObj := List (String × Primitive)

namespace JSObj

/-- The own property of `o` under key `k`, if there is one. -/
def ownProp : JSObj → String → Option Primitive
  | [], _ => none
  | (k', v') :: rest, k => if k' = k then some v' else ownProp rest k

/-- The own properties after key `k` has been given the value `v`: an existing
key keeps its place, a new key goes to the end. -/
def defineOwn : JSObj → String → Primitive → JSObj
  | [], k, v => [(k, v)]
  | (k', v') :: rest, k, v =>
      if k' = k then (k, v) :: rest else (k', v') :: defineOwn rest k v

/-- The property read `o[k]`: the own property, else the inherited member. -/
def getProp (o : JSObj) (k : String) : JSValue :=
  match ownProp o k with
  | some v => v.toValue
  | none => inheritedProp k

/-- The object after the assignment `o[k] = v` of a primitive `v`: the setter of
`__proto__` ignores a primitive, and any other key becomes or stays an own
property holding `v`. -/
def setProp (o : JSObj) (k : String) (v : Primitive) : JSObj :=
  if k = "__proto__" then o else defineOwn o k v

end JSObj

/-- The truth value of a JavaScript value: `undefined`, `0`, `NaN` and the empty
string are falsy, everything else is truthy. -/
def truthy : JSValue → Bool
  | JSValue.undefined => false
  | JSValue.number n => decide (n ≠ 0)
  | JSValue.nan => false
  | JSValue.string s => decide (s ≠ "")
  | JSValue.builtin _ => true
  | JSValue.objectPrototype => true

/-- The expression `x || 0`. -/
def orZero (x : JSValue) : JSValue :=
  if truthy x then x else JSValue.number 0

/-- The expression `x + 1`: addition on a number, `NaN` for `undefined` and
`NaN`, and concatenation with `"1"` for a string and for the text of a function
or of `Object.prototype`. -/
def plusOne : JSValue → Primitive
  | JSValue.undefined => Primitive.nan
  | JSValue.number n => Primitive.number (n + 1)
  | JSValue.nan => Primitive.nan
  | JSValue.string s => Primitive.string (s ++ "1")
  | JSValue.builtin name =>
      Primitive.string ("function " ++ name ++ "() \x7b [native code] \x7d" ++ "1")
  | JSValue.objectPrototype => Primitive.string ("[object Object]" ++ "1")

/-- The statement `o[k] = (o[k] || 0) + 1`. -/
def bump (o : JSObj) (k : String) : JSObj :=
  o.setProp k (plusOne (orZero (o.getProp k)))

/-- The object `c` built by `counts`. -/
structure Counts where
  type : JSObj
  tech : JSObj
  color : JSObj
deriving DecidableEq, Repr

/-- The property read `c[group]`. -/
def Counts.get (c : Counts) : Group → JSObj
  | Group.type => c.type
  | Group.tech => c.tech
  | Group.color => c.color

/-- The body of `PRODUCTS.forEach((p) => ...)` in `counts`: the three statements in
source order, the middle one a `forEach` over `p.technologies`. -/
def countProduct (c : Counts) (p : Product) : Counts :=
  let c1 : Counts := { c with type := bump c.type p.type }
  let c2 : Counts := p.technologies.foldl (fun acc t => { acc with tech := bump acc.tech t }) c1
  { c2 with color := bump c2.color p.color }

/-- The computation of `counts` over an arbitrary catalog array. -/
def countsOf (catalog : List Product) : Counts :=
  catalog.foldl countProduct { type := [], tech := [], color := [] }

/-- The value `counts`: computed once from `PRODUCTS`; no selection enters. -/
def counts : Counts := countsOf PRODUCTS

/-- The value shown next to an option: `counts[groupKey][opt] || 0`. -/
def countLabel (c : Counts) (group : Group) (opt : String) : JSValue :=
  orZero ((c.get group).getProp opt)

/-! ## Predicates of the statements -/

/-- A product carries option `o` in a group: `o` is its type, one of its
technologies, or its color. -/
def carries (group : Group) (o : String) (p : Product) : Bool :=
  match group with
  | Group.type => decide (p.type = o)
  | Group.tech => p.technologies.contains o
  | Group.color => decide (p.color = o)

/-! ## Concrete inputs -/

/-- The selection after `toggleOption("type", "Однокамерный")` from the initial state. -/
def selectionA : Selection :=
  toggleOption Group.type "Однокамерный" initialSelected

/-- The selection after `toggleOption("tech", "Inverter")` from the initial state. -/
def selectionB : Selection :=
  toggleOption Group.tech "Inverter" initialSelected

/-- The selection after `toggleOption("type", "Side-by-Side")` and
`toggleOption("color", "Черный")` from the initial state. -/
def selectionC : Selection :=
  toggleOption Group.color "Черный" (toggleOption Group.type "Side-by-Side" initialSelected)

/-- The selection after `toggleOption("tech", "NoFrost")` and
`toggleOption("tech", "Inverter")` from the initial state. -/
def selectionNoFrostInverter : Selection :=
  toggleOption Group.tech "Inverter" (toggleOption Group.tech "NoFrost" initialSelected)

/-- The second entry of `PRODUCTS`: it has `"NoFrost"` and not `"Inverter"`. -/
def samsungNoFrost : Product :=
  { id := 2, title := "Samsung NoFrost 360", brand := "Samsung", type := "Однокамерный",
    technologies := ["NoFrost", "Door-in-Door"], color := "Серебристый", price := 45990 }

/-- A catalog of two products of type `"constructor"`. -/
def constructorCatalog : List Product :=
  [ { id := 1, title := "Demo", brand := "Demo", type := "constructor",
      technologies := ["toString"], color := "__proto__", price := 1 },
    { id := 2, title := "Demo", brand := "Demo", type := "constructor",
      technologies := ["toString"], color := "__proto__", price := 1 } ]

/-- A one-product catalog whose product lists the technology `"NoFrost"` twice. -/
def repeatedTechCatalog : List Product :=
  [ { id := 1, title := "Demo", brand := "Demo", type := "Однокамерный",
      technologies := ["NoFrost", "NoFrost"], color := "Белый", price := 1 } ]

/-! ## Sets -/

theorem JSSet.has_iff (s : JSSet) (x : String) : s.has x = true ↔ x ∈ s.items := by
  simp [JSSet.has]

theorem JSSet.mem_add (s : JSSet) (x y : String) :
    y ∈ (s.add x).items ↔ y ∈ s.items ∨ y = x := by
  unfold JSSet.add
  by_cases h : x ∈ s.items
  · simp only [h, dite_true]
    constructor
    · intro hy; exact Or.inl hy
    · rintro (hy | hy)
      · exact hy
      · exact hy ▸ h
  · simp [h]

theorem JSSet.mem_delete (s : JSSet) (x y : String) :
    y ∈ (s.delete x).items ↔ y ≠ x ∧ y ∈ s.items := by
  unfold JSSet.delete
  exact s.nodup.mem_erase_iff

theorem JSSet.has_add (s : JSSet) (x y : String) :
    (s.add x).has y = (s.has y || decide (y = x)) := by
  rw [Bool.eq_iff_iff]
  simp [JSSet.has_iff, JSSet.mem_add]

theorem JSSet.has_delete (s : JSSet) (x y : String) :
    (s.delete x).has y = (s.has y && !decide (y = x)) := by
  rw [Bool.eq_iff_iff]
  simp [JSSet.has_iff, JSSet.mem_delete, and_comm]

theorem JSSet.has_copy (s : JSSet) (y : String) : s.copy.has y = s.has y := rfl

/-- Membership after a toggle: the toggled option of the toggled group flips,
everything else stays. -/
theorem has_toggleOption (g : Group) (o : String) (s : Selection) (h : Group) (x : String) :
    ((toggleOption g o s).get h).has x =
      if h = g ∧ x = o then !(s.get g).has o else (s.get h).has x := by
  unfold toggleOption
  cases g <;> cases h <;>
    by_cases hx : x = o <;>
    (simp only [Selection.get, Selection.set]
     split <;> rename_i hh <;>
       simp_all [JSSet.has_add, JSSet.has_delete, JSSet.has_copy])


theorem JSSet.size_eq_zero_iff (s : JSSet) : s.size = 0 ↔ ∀ x, s.has x = false := by
  unfold JSSet.size JSSet.has
  rw [List.length_eq_zero, List.eq_nil_iff_forall_not_mem]
  simp

theorem JSSet.size_pos_iff (s : JSSet) : 0 < s.size ↔ ∃ x, s.has x = true := by
  rw [Nat.pos_iff_ne_zero, Ne, JSSet.size_eq_zero_iff]
  simp

/-! ## The filter predicate -/

/-- The callback of the filter in terms of set membership. -/
theorem keep_eq_true_iff (sel : Selection) (p : Product) :
    keep sel p = true ↔
      (sel.type.size = 0 ∨ sel.type.has p.type = true) ∧
      (sel.tech.size = 0 ∨
        ∃ t, sel.tech.has t = true ∧ p.technologies.contains t = true) ∧
      (sel.color.size = 0 ∨ sel.color.has p.color = true) := by
  have hany : (sel.tech.items.any (fun t => p.technologies.contains t)) = true ↔
      ∃ t, sel.tech.has t = true ∧ p.technologies.contains t = true := by
    simp [JSSet.has]
  unfold keep
  rw [← hany]
  generalize (sel.tech.items.any fun t => p.technologies.contains t) = b
  by_cases h1 : sel.type.size = 0 <;> by_cases h2 : sel.tech.size = 0 <;>
    by_cases h3 : sel.color.size = 0 <;>
    cases sel.type.has p.type <;> cases b <;> cases sel.color.has p.color <;>
    simp [h1, h2, h3, Nat.pos_iff_ne_zero]

theorem mem_filteredOf (catalog : List Product) (sel : Selection) (p : Product) :
    p ∈ filteredOf catalog sel ↔ p ∈ catalog ∧ keep sel p = true := by
  simp [filteredOf, List.mem_filter]

/-- The callback of the filter, group by group: each group is unconstrained
(nothing selected) or has a selected option that the product carries. -/
theorem keep_iff_forall_group (sel : Selection) (p : Product) :
    keep sel p = true ↔
      ∀ h : Group, (∀ x, (sel.get h).has x = false) ∨
        ∃ t, (sel.get h).has t = true ∧ carries h t p = true := by
  rw [keep_eq_true_iff]
  simp only [JSSet.size_eq_zero_iff]
  constructor
  · rintro ⟨a, b, c⟩ h
    cases h
    · rcases a with a | a
      · exact Or.inl a
      · exact Or.inr ⟨p.type, a, by simp [carries]⟩
    · rcases b with b | ⟨t, ht, hp⟩
      · exact Or.inl b
      · exact Or.inr ⟨t, ht, by simpa [carries] using hp⟩
    · rcases c with c | c
      · exact Or.inl c
      · exact Or.inr ⟨p.color, c, by simp [carries]⟩
  · intro hall
    refine ⟨?_, ?_, ?_⟩
    · rcases hall Group.type with a | ⟨t, ht, hp⟩
      · exact Or.inl a
      · have : p.type = t := by simpa [carries] using hp
        exact Or.inr (this ▸ ht)
    · rcases hall Group.tech with a | ⟨t, ht, hp⟩
      · exact Or.inl a
      · exact Or.inr ⟨t, ht, by simpa [carries] using hp⟩
    · rcases hall Group.color with a | ⟨t, ht, hp⟩
      · exact Or.inl a
      · have : p.color = t := by simpa [carries] using hp
        exact Or.inr (this ▸ ht)

/-- Toggling an option the product does not carry leaves the callback's answer
as it was, provided the group has another selected option. -/
theorem keep_toggleOption_of_other (s : Selection) (g : Group) (o : String) (p : Product)
    (hc : carries g o p = false) (hx : ∃ x, x ≠ o ∧ (s.get g).has x = true) :
    keep (toggleOption g o s) p = keep s p := by
  obtain ⟨x0, hx0, hx0m⟩ := hx
  rw [Bool.eq_iff_iff, keep_iff_forall_group, keep_iff_forall_group]
  refine forall_congr' fun h => ?_
  by_cases hg : h = g
  · subst hg
    have hne : ∀ t, carries h t p = true → t ≠ o := by
      intro t ht hto
      rw [hto, hc] at ht
      exact Bool.false_ne_true ht
    have hsame : ∀ t, t ≠ o → ((toggleOption h o s).get h).has t = (s.get h).has t := by
      intro t ht
      rw [has_toggleOption]; simp [ht]
    constructor
    · rintro (a | ⟨t, ht, hp⟩)
      · have := a x0
        rw [hsame x0 hx0, hx0m] at this
        exact absurd this (by simp)
      · exact Or.inr ⟨t, by rw [← hsame t (hne t hp)]; exact ht, hp⟩
    · rintro (a | ⟨t, ht, hp⟩)
      · have := a x0
        rw [hx0m] at this
        exact absurd this (by simp)
      · exact Or.inr ⟨t, by rw [hsame t (hne t hp)]; exact ht, hp⟩
  · have hsame : ∀ t, ((toggleOption g o s).get h).has t = (s.get h).has t := by
      intro t
      rw [has_toggleOption]; simp [hg]
    simp only [hsame]

/-- A group whose only selected option is one the product does not carry makes
the callback reject the product. -/
theorem keep_eq_false_of_only (sel : Selection) (g : Group) (o : String) (p : Product)
    (hc : carries g o p = false) (ho : (sel.get g).has o = true)
    (honly : ∀ x, x ≠ o → (sel.get g).has x = false) :
    keep sel p = false := by
  rw [← Bool.not_eq_true, keep_iff_forall_group]
  intro hall
  rcases hall g with a | ⟨t, ht, hp⟩
  · have := a o
    rw [ho] at this
    exact absurd this (by simp)
  · by_cases hto : t = o
    · rw [hto, hc] at hp
      exact Bool.false_ne_true hp
    · rw [honly t hto] at ht
      exact Bool.false_ne_true ht

/-! ## Claims about the filter -/

/-- C1. A product of the catalog is in the filtered result exactly when the
selected types are empty or contain its type, the selected technologies are
empty or share an element with its technologies, and the selected colors are
empty or contain its color. With exactly "NoFrost" and "Inverter" selected as
technologies and no type or color selected, a catalog product having at least
one of the two is in the result. -/
theorem filtered_iff (sel : Selection) (p : Product) (hp : p ∈ PRODUCTS) :
    (p ∈ filtered sel ↔
      (sel.type.size = 0 ∨ sel.type.has p.type = true) ∧
      (sel.tech.size = 0 ∨
        ∃ t, sel.tech.has t = true ∧ p.technologies.contains t = true) ∧
      (sel.color.size = 0 ∨ sel.color.has p.color = true)) ∧
    (sel.type.size = 0 → sel.color.size = 0 →
      (∀ t, sel.tech.has t = true ↔ (t = "NoFrost" ∨ t = "Inverter")) →
      (p.technologies.contains "NoFrost" = true ∨ p.technologies.contains "Inverter" = true) →
      p ∈ filtered sel) := by
  have key : p ∈ filtered sel ↔ keep sel p = true := by
    unfold filtered
    rw [mem_filteredOf]
    exact ⟨fun h => h.2, fun h => ⟨hp, h⟩⟩
  refine ⟨by rw [key, keep_eq_true_iff], ?_⟩
  intro h1 h3 hmem hone
  rw [key, keep_eq_true_iff]
  refine ⟨Or.inl h1, Or.inr ?_, Or.inl h3⟩
  rcases hone with h | h
  · exact ⟨"NoFrost", (hmem _).mpr (Or.inl rfl), h⟩
  · exact ⟨"Inverter", (hmem _).mpr (Or.inr rfl), h⟩

/-- Witness of C1: the Samsung product has "NoFrost" and not "Inverter", and it is
in the filtered result for the selection of both technologies. -/
theorem filtered_iff_witness :
    samsungNoFrost.technologies.contains "Inverter" = false ∧
      samsungNoFrost ∈ filtered selectionNoFrostInverter :=
  ⟨by decide,
    (filtered_iff selectionNoFrostInverter samsungNoFrost (by decide)).2 (by decide) (by decide)
      (by
        intro t
        have hitems : selectionNoFrostInverter.tech.items = ["NoFrost", "Inverter"] := by decide
        simp [JSSet.has, hitems])
      (Or.inl (by decide))⟩

/-- C3. The filtered result is a subsequence of the catalog: a sublist in
catalog order, holding only catalog products, none more often than the
catalog does. -/
theorem filtered_subsequence (sel : Selection) :
    List.Sublist (filtered sel) PRODUCTS ∧
      filtered sel ⊆ PRODUCTS ∧
      ∀ p : Product, (filtered sel).count p ≤ PRODUCTS.count p := by
  have hsub : List.Sublist (filtered sel) PRODUCTS := by
    unfold filtered filteredOf
    exact List.filter_sublist PRODUCTS
  exact ⟨hsub, hsub.subset, fun p => hsub.count_le p⟩

/-- C4. After `clearFilters()` all three sets are empty whatever the selection
before, clearing twice is clearing once, and the filtered result of the cleared
selection is the whole catalog in catalog order. -/
theorem clearFilters_spec (prev : Selection) :
    (clearFilters prev).type.items = [] ∧
      (clearFilters prev).tech.items = [] ∧
      (clearFilters prev).color.items = [] ∧
      clearFilters (clearFilters prev) = clearFilters prev ∧
      filtered (clearFilters prev) = PRODUCTS := by
  refine ⟨rfl, rfl, rfl, rfl, ?_⟩
  unfold filtered filteredOf
  rw [List.filter_eq_self]
  intro p _
  rw [keep_eq_true_iff]
  exact ⟨Or.inl rfl, Or.inl rfl, Or.inl rfl⟩

/-- C8. On the compiled-in catalog: type "Однокамерный" alone selects the product
with id 2; technology "Inverter" alone selects the products with ids 4 and 5 in
that order; type "Side-by-Side" with color "Черный" selects nothing. -/
theorem filtered_scenarios :
    (filtered selectionA).map (fun p => p.id) = [2] ∧
      (filtered selectionB).map (fun p => p.id) = [4, 5] ∧
      filtered selectionC = [] := by
  refine ⟨?_, ?_, ?_⟩ <;> decide

/-! ## Claims about the toggle -/

/-- C5. After `toggleOption(g, o)` the option `o` is a member of the set of
group `g` exactly when it was not before, every other option of group `g` keeps
its membership, and the sets of the other groups keep their members; `o` is
any string, in the declared option list or not. -/
theorem toggleOption_membership (s : Selection) (g : Group) (o : String) :
    ((toggleOption g o s).get g).has o = !(s.get g).has o ∧
      (∀ x : String, x ≠ o → ((toggleOption g o s).get g).has x = (s.get g).has x) ∧
      (∀ h : Group, h ≠ g → ∀ x : String,
        ((toggleOption g o s).get h).has x = (s.get h).has x) := by
  refine ⟨?_, ?_, ?_⟩
  · rw [has_toggleOption]; simp
  · intro x hx
    rw [has_toggleOption]; simp [hx]
  · intro h hh x
    rw [has_toggleOption]; simp [hh]

/-- Witness of C5: "Стальной" is not a declared type option; toggling it in group
type of the initial selection makes it a member there, and leaves the other
type options and the other groups as they were. -/
theorem toggleOption_membership_witness :
    "Стальной" ∉ FILTER_GROUPS_options Group.type ∧
      ((toggleOption Group.type "Стальной" initialSelected).get Group.type).has "Стальной"
        = true ∧
      ((toggleOption Group.type "Стальной" initialSelected).get Group.type).has "Side-by-Side"
        = (initialSelected.get Group.type).has "Side-by-Side" ∧
      ((toggleOption Group.type "Стальной" initialSelected).get Group.color).has "Стальной"
        = (initialSelected.get Group.color).has "Стальной" :=
  ⟨by decide,
    (toggleOption_membership initialSelected Group.type "Стальной").1,
    (toggleOption_membership initialSelected Group.type "Стальной").2.1 "Side-by-Side"
      (by decide),
    (toggleOption_membership initialSelected Group.type "Стальной").2.2 Group.color
      (by decide) "Стальной"⟩

/-- C6. Toggling the same option of the same group twice gives a selection with
the members of the selection before, in all three sets. -/
theorem toggleOption_twice (s : Selection) (g : Group) (o : String) (h : Group) (x : String) :
    ((toggleOption g o (toggleOption g o s)).get h).has x = (s.get h).has x := by
  simp only [has_toggleOption]
  by_cases hc : h = g ∧ x = o
  · obtain ⟨rfl, rfl⟩ := hc
    simp
  · simp [hc]

/-- C9. Two toggles commute: either order gives the same members in all three
sets. -/
theorem toggleOption_comm (s : Selection) (g1 : Group) (o1 : String) (g2 : Group)
    (o2 : String) (h : Group) (x : String) :
    ((toggleOption g2 o2 (toggleOption g1 o1 s)).get h).has x =
      ((toggleOption g1 o1 (toggleOption g2 o2 s)).get h).has x := by
  simp only [has_toggleOption]
  by_cases h1 : h = g1 <;> by_cases h2 : h = g2 <;>
    by_cases x1 : x = o1 <;> by_cases x2 : x = o2 <;>
    simp_all

/-- Counterexample to C10 as stated: from the initial selection, two toggles of
"Side-by-Side" in group type do not give the members that one toggle gives. -/
theorem toggleOption_not_idempotent :
    ¬ (∀ (h : Group) (x : String),
        ((toggleOption Group.type "Side-by-Side"
            (toggleOption Group.type "Side-by-Side" initialSelected)).get h).has x =
          ((toggleOption Group.type "Side-by-Side" initialSelected).get h).has x) :=
  fun hall => absurd (hall Group.type "Side-by-Side") (by decide)

/-- C10, amended. Toggle is self-inverse, not idempotent: after two toggles of
`(g, o)` the option `o` of group `g` has the opposite membership to the one
after a single toggle, every other option and group agrees with the single
toggle, and three toggles give the same members as one. -/
theorem toggleOption_twice_vs_once (s : Selection) (g : Group) (o : String) :
    ((toggleOption g o (toggleOption g o s)).get g).has o =
        !((toggleOption g o s).get g).has o ∧
      (∀ x : String, x ≠ o →
        ((toggleOption g o (toggleOption g o s)).get g).has x =
          ((toggleOption g o s).get g).has x) ∧
      (∀ h : Group, h ≠ g → ∀ x : String,
        ((toggleOption g o (toggleOption g o s)).get h).has x =
          ((toggleOption g o s).get h).has x) ∧
      (∀ (h : Group) (x : String),
        ((toggleOption g o (toggleOption g o (toggleOption g o s))).get h).has x =
          ((toggleOption g o s).get h).has x) := by
  refine ⟨?_, ?_, ?_, ?_⟩
  · simp only [has_toggleOption]; simp
  · intro x hx
    simp only [has_toggleOption]; simp [hx]
  · intro h hh x
    simp only [has_toggleOption]; simp [hh]
  · intro h x
    simp only [has_toggleOption]
    by_cases hc : h = g ∧ x = o
    · obtain ⟨rfl, rfl⟩ := hc
      simp
    · simp [hc]

/-- Witness of the amended C10 at the initial selection and the pair
(type, "Side-by-Side"). -/
theorem toggleOption_twice_vs_once_witness :
    ((toggleOption Group.type "Side-by-Side"
        (toggleOption Group.type "Side-by-Side" initialSelected)).get Group.type).has "Однокамерный" =
      ((toggleOption Group.type "Side-by-Side" initialSelected).get Group.type).has "Однокамерный" ∧
    ((toggleOption Group.type "Side-by-Side"
        (toggleOption Group.type "Side-by-Side" initialSelected)).get Group.tech).has "NoFrost" =
      ((toggleOption Group.type "Side-by-Side" initialSelected).get Group.tech).has "NoFrost" :=
  ⟨(toggleOption_twice_vs_once initialSelected Group.type "Side-by-Side").2.1 "Однокамерный"
      (by decide),
    (toggleOption_twice_vs_once initialSelected Group.type "Side-by-Side").2.2.1 Group.tech
      (by decide) "NoFrost"⟩

/-! ## Toggling an option no product carries -/

/-- Counterexample to C2 as stated: no product of the catalog has the color
"Стальной", and toggling it from the initial selection changes the filtered
result, which goes from the whole catalog to the empty list. -/
theorem toggle_unmatched_changes_filtered :
    (∀ p ∈ PRODUCTS, carries Group.color "Стальной" p = false) ∧
      filtered initialSelected = PRODUCTS ∧
      filtered (toggleOption Group.color "Стальной" initialSelected) = [] ∧
      filtered (toggleOption Group.color "Стальной" initialSelected) ≠
        filtered initialSelected := by
  refine ⟨?_, ?_, ?_, ?_⟩ <;> decide

/-- C2, amended. Let no catalog product carry option `o` in group `g`. If the
set of `g` holds an option other than `o`, toggling `o` leaves the filtered
result as it was. If it holds no other option, the filtered result is empty
after the toggle when `o` was not selected, and was empty before the toggle
when `o` was selected. -/
theorem toggle_unmatched_filtered (s : Selection) (g : Group) (o : String)
    (hno : ∀ p ∈ PRODUCTS, carries g o p = false) :
    ((∃ x, x ≠ o ∧ (s.get g).has x = true) →
        filtered (toggleOption g o s) = filtered s) ∧
      ((∀ x, x ≠ o → (s.get g).has x = false) → (s.get g).has o = false →
        filtered (toggleOption g o s) = []) ∧
      ((∀ x, x ≠ o → (s.get g).has x = false) → (s.get g).has o = true →
        filtered s = []) := by
  refine ⟨?_, ?_, ?_⟩
  · intro hx
    unfold filtered filteredOf
    exact List.filter_congr fun p hp => keep_toggleOption_of_other s g o p (hno p hp) hx
  · intro honly ho
    unfold filtered filteredOf
    rw [List.filter_eq_nil_iff]
    intro p hp
    rw [Bool.not_eq_true]
    refine keep_eq_false_of_only _ g o p (hno p hp) ?_ ?_
    · rw [has_toggleOption]; simp [ho]
    · intro x hx
      rw [has_toggleOption]; simp [hx, honly x hx]
  · intro honly ho
    unfold filtered filteredOf
    rw [List.filter_eq_nil_iff]
    intro p hp
    rw [Bool.not_eq_true]
    exact keep_eq_false_of_only s g o p (hno p hp) ho honly

/-- Witness of the amended C2 for the unmatched color "Стальной": with "Черный"
selected the toggle keeps the filtered result; from the initial selection the
toggle empties it; and with "Стальной" alone selected it is empty. -/
theorem toggle_unmatched_filtered_witness :
    filtered (toggleOption Group.color "Стальной"
          (toggleOption Group.color "Черный" initialSelected)) =
        filtered (toggleOption Group.color "Черный" initialSelected) ∧
      filtered (toggleOption Group.color "Стальной" initialSelected) = [] ∧
      filtered (toggleOption Group.color "Стальной" initialSelected) = [] :=
  ⟨(toggle_unmatched_filtered (toggleOption Group.color "Черный" initialSelected)
      Group.color "Стальной" (by decide)).1 ⟨"Черный", by decide, by decide⟩,
    (toggle_unmatched_filtered initialSelected Group.color "Стальной" (by decide)).2.1
      (fun _ _ => rfl) rfl,
    (toggle_unmatched_filtered (toggleOption Group.color "Стальной" initialSelected)
      Group.color "Стальной" (by decide)).2.2
      (by
        intro x hx
        have hitems :
            ((toggleOption Group.color "Стальной" initialSelected).get Group.color).items
              = ["Стальной"] := by decide
        simp [JSSet.has, hitems, hx])
      (by decide)⟩

/-! ## The counts -/

/-- A key that names no member of `Object.prototype` is not `__proto__` and
inherits `undefined`. -/
theorem inheritedProp_of_not_mem (j : String) (hj : j ∉ objectPrototypeKeys) :
    j ≠ "__proto__" ∧ inheritedProp j = JSValue.undefined := by
  simp only [objectPrototypeKeys, objectPrototypeFunctions, List.map, List.mem_cons,
    List.mem_nil_iff, or_false, not_or] at hj
  obtain ⟨h0, h1, h2, h3, h4, h5, h6, h7, h8, h9, h10, h11⟩ := hj
  refine ⟨h0, ?_⟩
  simp [inheritedProp, findMember, objectPrototypeFunctions, h0, Ne.symm h1, Ne.symm h2,
    Ne.symm h3, Ne.symm h4, Ne.symm h5, Ne.symm h6, Ne.symm h7, Ne.symm h8, Ne.symm h9,
    Ne.symm h10, Ne.symm h11]

theorem JSObj.ownProp_defineOwn (o : JSObj) (k : String) (v : Primitive) (j : String) :
    JSObj.ownProp (JSObj.defineOwn o k v) j = if j = k then some v else JSObj.ownProp o j := by
  induction o with
  | nil =>
    by_cases hj : j = k
    · simp [JSObj.defineOwn, JSObj.ownProp, hj]
    · have hkj : ¬ k = j := fun h => hj h.symm
      simp [JSObj.defineOwn, JSObj.ownProp, hj, hkj]
  | cons kv rest ih =>
    obtain ⟨a, b⟩ := kv
    by_cases hak : a = k
    · subst hak
      by_cases hj : j = a
      · simp [JSObj.defineOwn, JSObj.ownProp, hj]
      · have haj : ¬ a = j := fun h => hj h.symm
        simp [JSObj.defineOwn, JSObj.ownProp, hj, haj]
    · by_cases hj : j = k
      · subst hj
        simp [JSObj.defineOwn, JSObj.ownProp, hak, ih]
      · by_cases haj : a = j
        · simp [JSObj.defineOwn, JSObj.ownProp, hak, hj, haj]
        · simp [JSObj.defineOwn, JSObj.ownProp, hak, hj, haj, ih]

/-- An assignment to key `k` does not change what another key reads. -/
theorem JSObj.getProp_setProp_of_ne (o : JSObj) (k : String) (v : Primitive) (j : String)
    (hjk : j ≠ k) : JSObj.getProp (JSObj.setProp o k v) j = JSObj.getProp o j := by
  unfold JSObj.setProp
  by_cases hk : k = "__proto__"
  · simp [hk]
  · simp only [hk, if_false]
    unfold JSObj.getProp
    rw [JSObj.ownProp_defineOwn]
    simp [hjk]

/-- An assignment to a key other than `__proto__` is read back. -/
theorem JSObj.getProp_setProp_self (o : JSObj) (k : String) (v : Primitive)
    (hk : k ≠ "__proto__") : JSObj.getProp (JSObj.setProp o k v) k = v.toValue := by
  unfold JSObj.setProp JSObj.getProp
  simp only [hk, if_false]
  rw [JSObj.ownProp_defineOwn]
  simp

/-- The empty object reads as the number 0 under a key that names no member of
`Object.prototype`. -/
theorem orZero_getProp_nil (j : String) (hj : j ∉ objectPrototypeKeys) :
    orZero (JSObj.getProp [] j) = JSValue.number 0 := by
  have h := (inheritedProp_of_not_mem j hj).2
  simp [JSObj.getProp, JSObj.ownProp, h, orZero, truthy]

/-- Reading a key that names no member of `Object.prototype` after
`o[k] = (o[k] || 0) + 1`: a numeric count has gained one if the key is `k`, and
is as before otherwise. -/
theorem orZero_getProp_bump (o : JSObj) (k j : String) (n : Nat)
    (hj : j ∉ objectPrototypeKeys) (hn : orZero (JSObj.getProp o j) = JSValue.number n) :
    orZero (JSObj.getProp (bump o k) j) = JSValue.number (n + (if j = k then 1 else 0)) := by
  unfold bump
  by_cases hjk : j = k
  · subst hjk
    rw [JSObj.getProp_setProp_self _ _ _ (inheritedProp_of_not_mem j hj).1, hn]
    simp [plusOne, Primitive.toValue, orZero, truthy]
  · rw [JSObj.getProp_setProp_of_ne _ _ _ _ hjk, hn]
    simp [hjk]

/-- The inner `forEach` over the technologies touches only `c.tech`, and adds to
a numeric count of a technology the number of times the array lists it. -/
theorem foldl_tech (ts : List String) (c : Counts) (j : String) (n : Nat)
    (hj : j ∉ objectPrototypeKeys) (hn : orZero (JSObj.getProp c.tech j) = JSValue.number n) :
    (ts.foldl (fun acc t => { acc with tech := bump acc.tech t }) c).type = c.type ∧
      (ts.foldl (fun acc t => { acc with tech := bump acc.tech t }) c).color = c.color ∧
      orZero (JSObj.getProp
          (ts.foldl (fun acc t => { acc with tech := bump acc.tech t }) c).tech j) =
        JSValue.number (n + ts.count j) := by
  induction ts generalizing c n with
  | nil => simpa using hn
  | cons t rest ih =>
    simp only [List.foldl_cons]
    obtain ⟨h1, h2, h3⟩ := ih { c with tech := bump c.tech t } (n + (if j = t then 1 else 0))
      (orZero_getProp_bump c.tech t j n hj hn)
    refine ⟨h1, h2, ?_⟩
    rw [h3, List.count_cons]
    by_cases hjt : j = t
    · subst hjt
      simp
      omega
    · have htj : ¬ t = j := fun h => hjt h.symm
      simp [hjt, htj]

/-- One round of the outer `forEach`: what each of the three objects reads,
under a key that names no member of `Object.prototype`, after the product has
been counted. -/
theorem countProduct_read (c : Counts) (p : Product) (j : String) (a b d : Nat)
    (hj : j ∉ objectPrototypeKeys)
    (ha : orZero (JSObj.getProp c.type j) = JSValue.number a)
    (hb : orZero (JSObj.getProp c.tech j) = JSValue.number b)
    (hd : orZero (JSObj.getProp c.color j) = JSValue.number d) :
    orZero (JSObj.getProp (countProduct c p).type j) =
        JSValue.number (a + (if p.type = j then 1 else 0)) ∧
      orZero (JSObj.getProp (countProduct c p).tech j) =
        JSValue.number (b + p.technologies.count j) ∧
      orZero (JSObj.getProp (countProduct c p).color j) =
        JSValue.number (d + (if p.color = j then 1 else 0)) := by
  obtain ⟨h1, h2, h3⟩ :=
    foldl_tech p.technologies { c with type := bump c.type p.type } j b hj hb
  have e1 : (if p.type = j then 1 else 0) = (if j = p.type then 1 else 0) := by
    by_cases h : p.type = j
    · simp [h]
    · have : ¬ j = p.type := fun h2 => h h2.symm
      simp [h, this]
  have e2 : (if p.color = j then 1 else 0) = (if j = p.color then 1 else 0) := by
    by_cases h : p.color = j
    · simp [h]
    · have : ¬ j = p.color := fun h2 => h h2.symm
      simp [h, this]
  unfold countProduct
  refine ⟨?_, ?_, ?_⟩
  · show orZero (JSObj.getProp _ j) = _
    simp only [h1]
    rw [e1]
    exact orZero_getProp_bump c.type p.type j a hj ha
  · exact h3
  · show orZero (JSObj.getProp (bump _ p.color) j) = _
    simp only [h2]
    rw [e2]
    exact orZero_getProp_bump c.color p.color j d hj hd

/-- The outer `forEach` from any starting object `c` with numeric counts under a
key that names no member of `Object.prototype`. -/
theorem foldl_countProduct_read (catalog : List Product) (c : Counts) (j : String) (a b d : Nat)
    (hj : j ∉ objectPrototypeKeys)
    (ha : orZero (JSObj.getProp c.type j) = JSValue.number a)
    (hb : orZero (JSObj.getProp c.tech j) = JSValue.number b)
    (hd : orZero (JSObj.getProp c.color j) = JSValue.number d) :
    orZero (JSObj.getProp (catalog.foldl countProduct c).type j) =
        JSValue.number (a + catalog.countP (fun p => decide (p.type = j))) ∧
      orZero (JSObj.getProp (catalog.foldl countProduct c).tech j) =
        JSValue.number (b + (catalog.map (fun p => p.technologies.count j)).sum) ∧
      orZero (JSObj.getProp (catalog.foldl countProduct c).color j) =
        JSValue.number (d + catalog.countP (fun p => decide (p.color = j))) := by
  induction catalog generalizing c a b d with
  | nil => simpa using ⟨ha, hb, hd⟩
  | cons p rest ih =>
    simp only [List.foldl_cons]
    obtain ⟨k1, k2, k3⟩ := countProduct_read c p j a b d hj ha hb hd
    obtain ⟨h1, h2, h3⟩ := ih (countProduct c p) _ _ _ k1 k2 k3
    refine ⟨?_, ?_, ?_⟩
    · rw [h1, List.countP_cons]
      by_cases hp : p.type = j
      · simp [hp]
        omega
      · simp [hp]
    · rw [h2, List.map_cons, List.sum_cons]
      simp
      omega
    · rw [h3, List.countP_cons]
      by_cases hp : p.color = j
      · simp [hp]
        omega
      · simp [hp]

/-- When no product lists a technology twice, counting occurrences is counting
products. -/
theorem sum_count_eq_countP (catalog : List Product) (j : String)
    (hnd : ∀ p ∈ catalog, p.technologies.Nodup) :
    (catalog.map (fun p => p.technologies.count j)).sum =
      catalog.countP (fun p => p.technologies.contains j) := by
  induction catalog with
  | nil => simp
  | cons p rest ih =>
    have hp : p.technologies.Nodup := hnd p (List.mem_cons_self _ _)
    have hrest := ih (fun q hq => hnd q (List.mem_cons_of_mem _ hq))
    rw [List.map_cons, List.sum_cons, List.countP_cons, hrest, List.count_eq_of_nodup hp]
    by_cases hj : j ∈ p.technologies <;> simp [hj, Nat.add_comm]

/-- Counterexample to C7 as stated. On the compiled-in catalog no product has
type "constructor", yet `counts.type["constructor"] || 0` is the inherited
function `Object`, not 0; for two products of type "constructor" the count is a
string, not 2; and for one product that lists "NoFrost" twice the technology
count of "NoFrost" is 2, not 1. -/
theorem counts_inherited_or_repeated :
    (countLabel counts Group.type "constructor" = JSValue.builtin "Object" ∧
      countLabel counts Group.type "constructor" ≠
        JSValue.number (PRODUCTS.countP (fun p => decide (p.type = "constructor")))) ∧
    (countLabel (countsOf constructorCatalog) Group.type "constructor" =
        JSValue.string "function Object() \x7b [native code] \x7d11" ∧
      countLabel (countsOf constructorCatalog) Group.type "constructor" ≠
        JSValue.number (constructorCatalog.countP (fun p => decide (p.type = "constructor")))) ∧
    (countLabel (countsOf repeatedTechCatalog) Group.tech "NoFrost" = JSValue.number 2 ∧
      repeatedTechCatalog.countP (fun p => p.technologies.contains "NoFrost") = 1 ∧
      countLabel (countsOf repeatedTechCatalog) Group.tech "NoFrost" ≠
        JSValue.number
          (repeatedTechCatalog.countP (fun p => p.technologies.contains "NoFrost"))) := by
  refine ⟨⟨?_, ?_⟩, ⟨?_, ?_⟩, ⟨?_, ?_, ?_⟩⟩ <;> decide

/-- C7, amended. For every catalog and every option `o` that names no member of
`Object.prototype`, an absent key read as 0: the type count of `o` is the
number of products of type `o`, the color count likewise, and the technology
count of `o` is the number of times the products' technology arrays list `o`,
which is the number of products having `o` when no array lists a technology
twice. The counts take no selection, and on the compiled-in catalog the type
count of "Многокамерный" is 1. -/
theorem countsOf_spec (catalog : List Product) (o : String)
    (ho : o ∉ objectPrototypeKeys) :
    countLabel (countsOf catalog) Group.type o =
        JSValue.number (catalog.countP (fun p => decide (p.type = o))) ∧
      countLabel (countsOf catalog) Group.tech o =
        JSValue.number ((catalog.map (fun p => p.technologies.count o)).sum) ∧
      ((∀ p ∈ catalog, p.technologies.Nodup) →
        countLabel (countsOf catalog) Group.tech o =
          JSValue.number (catalog.countP (fun p => p.technologies.contains o))) ∧
      countLabel (countsOf catalog) Group.color o =
        JSValue.number (catalog.countP (fun p => decide (p.color = o))) ∧
      countLabel counts Group.type "Многокамерный" = JSValue.number 1 := by
  have z := orZero_getProp_nil o ho
  obtain ⟨h1, h2, h3⟩ :=
    foldl_countProduct_read catalog { type := [], tech := [], color := [] } o 0 0 0 ho z z z
  simp only [Nat.zero_add] at h1 h2 h3
  refine ⟨h1, h2, ?_, h3, by decide⟩
  intro hnd
  rw [← sum_count_eq_countP catalog o hnd]
  exact h2

/-- Witness of the amended C7: "Inverter" names no member of `Object.prototype`,
no product of the compiled-in catalog lists a technology twice, and two of them
have "Inverter". -/
theorem countsOf_spec_witness :
    "Inverter" ∉ objectPrototypeKeys ∧
      (∀ p ∈ PRODUCTS, p.technologies.Nodup) ∧
      countLabel (countsOf PRODUCTS) Group.tech "Inverter" = JSValue.number 2 :=
  ⟨by decide, by decide,
    ((countsOf_spec PRODUCTS "Inverter" (by decide)).2.2.1 (by decide)).trans (by decide)⟩


end FridgeShop
